import Mathlib

/-!
Shallow embedding of `src/aws/table_aws_guardduty_threat_intel_set.go`
(Steampipe table connector for AWS GuardDuty ThreatIntelSet), together with
theorems settling the specification claims about it.

The Go file defines:
  * `threatIntelSetInfo` — a record pairing a `GetThreatIntelSetOutput`
    with the identifying `(DetectorID, ThreatIntelSetID)` pair;
  * `tableAwsGuardDutyThreatIntelSet` — the table descriptor, including the
    ignore policy `isNotFoundError(["InvalidInputException", "BadRequestException"])`;
  * `listGuardDutyThreatIntelSets` — the list resolver: qual-based skip,
    then `ListThreatIntelSetsPages` with `MaxResults = 50`, streaming each
    identifier and checking `RowsRemaining` after each emitted row;
  * `getGuardDutyThreatIntelSet` — the get resolver;
  * `getAwsGuardDutyThreatIntelSetAkas` — the aka transform.

Outbound effects (session creation, API page fetches, the get call, the
memoized common-column lookup) are passed in explicitly as `Except`-valued
data; the row stream is the returned list of emitted rows, in emission
order; the number of page requests made by the paginator is returned
alongside.
-/

/-- An AWS API error, carrying the error code used by the ignore policy. -/
structure ApiError where
  code : String
  message : String
deriving DecidableEq

/-- The fields of `guardduty.GetThreatIntelSetOutput` that the table exposes
(name, format, location, status, tags). -/
structure GetThreatIntelSetOutput where
  Name : Option String := none
  Format : Option String := none
  Location : Option String := none
  Status : Option String := none
  Tags : List (String × String) := []
deriving DecidableEq

/-- Go: `type threatIntelSetInfo = struct { guardduty.GetThreatIntelSetOutput;
ThreatIntelSetID string; DetectorID string }`. -/
structure threatIntelSetInfo where
  output : GetThreatIntelSetOutput := {}
  ThreatIntelSetID : String
  DetectorID : String
deriving DecidableEq

/-- A pushed-down qual value: the protobuf value is either a single string
value or a list of string values (`GetStringValue` / `GetListValue`). -/
inductive QualValue where
  | stringValue (s : String)
  | listValue (xs : List String)
deriving DecidableEq

/-- Protobuf accessor `GetStringValue`: the string value when the value is of
string kind, and the empty string otherwise. -/
def QualValue.getStringValue : QualValue → String
  | .stringValue s => s
  | .listValue _ => ""

/-- Protobuf accessor `GetListValue` composed with the repository helper
`getListValues`. Modelled from the spec: `getListValues` (declared outside
this file, in the plugin's shared utilities) extracts the string values of a
list-valued qual; here the qual already carries them. -/
def QualValue.getListValues : QualValue → List String
  | .stringValue _ => []
  | .listValue xs => xs

/-- Go's `fmt.Sprint` applied to a slice of strings: the elements joined by
single spaces, between square brackets. -/
def fmtSprint (xs : List String) : String :=
  "[" ++ String.intercalate " " xs ++ "]"

/-- Go's `strings.Contains s sub`: `sub` occurs as a contiguous substring
of `s`. -/
def stringsContains (s sub : String) : Bool :=
  decide (sub.data <:+: s.data)

/-- The skip test at the head of `listGuardDutyThreatIntelSets`
(lines 119–129): with a qual present, a nonempty single string value skips
unless it equals the current detector ID; otherwise a nonempty list value
skips unless the stringified list contains the detector ID as a substring. -/
def shouldSkipDetector (detectorID : String) (q : Option QualValue) : Bool :=
  match q with
  | none => false
  | some v =>
    if v.getStringValue ≠ "" then
      decide (v.getStringValue ≠ "" ∧ v.getStringValue ≠ detectorID)
    else if v.getListValues.length > 0 then
      ! stringsContains (fmtSprint v.getListValues) detectorID
    else
      false

/-- Go: `guardduty.ListThreatIntelSetsInput`. -/
structure ListThreatIntelSetsInput where
  DetectorId : String
  MaxResults : Nat
deriving DecidableEq

/-- The request the list resolver builds (lines 131–134):
`DetectorId: &detectorID, MaxResults: aws.Int64(50)`. -/
def mkListInput (detectorID : String) : ListThreatIntelSetsInput :=
  { DetectorId := detectorID, MaxResults := 50 }

/-- The summary row streamed for one identifier (lines 141–144). -/
def mkSummaryRow (detectorID id : String) : threatIntelSetInfo :=
  { ThreatIntelSetID := id, DetectorID := detectorID }

/-- The page callback body (lines 140–150): stream a row per identifier, and
after each emitted row check `d.QueryStatus.RowsRemaining(ctx)`; a zero
result returns `false` (stop paginating).  `rowsRemaining k` is the
consumer's rows-remaining signal when `k` rows have been emitted in total;
`n` is the count of rows emitted before this page.  Returns the rows this
page emitted and the callback's continue flag. -/
def processPage (detectorID : String) (rowsRemaining : Nat → Nat) :
    Nat → List String → List threatIntelSetInfo × Bool
  | _, [] => ([], true)
  | n, id :: rest =>
    if rowsRemaining (n + 1) = 0 then
      ([mkSummaryRow detectorID id], false)
    else
      let r := processPage detectorID rowsRemaining (n + 1) rest
      (mkSummaryRow detectorID id :: r.1, r.2)

/-- `svc.ListThreatIntelSetsPages` (lines 137–153): request pages in order;
on a failed page request return the error; otherwise run the callback and,
when it returns `true` and the page was not the last, request the next page.
The upstream is the list of page-request outcomes, the last element being
the final page (`isLast`).  `n` counts rows already emitted.  Returns
(emitted rows, number of page requests made, error if any). -/
def runPages (detectorID : String) (rowsRemaining : Nat → Nat) :
    Nat → List (Except ApiError (List String)) →
    List threatIntelSetInfo × Nat × Option ApiError
  | _, [] => ([], 0, none)
  | _, .error e :: _ => ([], 1, some e)
  | n, .ok page :: rest =>
    let r := processPage detectorID rowsRemaining n page
    if r.2 && !rest.isEmpty then
      let s := runPages detectorID rowsRemaining (n + r.1.length) rest
      (r.1 ++ s.1, s.2.1 + 1, s.2.2)
    else
      (r.1, 1, none)

instance {ε α : Type} [DecidableEq ε] [DecidableEq α] : DecidableEq (Except ε α) :=
  fun a b =>
    match a, b with
    | .error e, .error f =>
      if h : e = f then isTrue (by rw [h])
      else isFalse (by intro hc; cases hc; exact h rfl)
    | .error _, .ok _ => isFalse (by intro hc; cases hc)
    | .ok _, .error _ => isFalse (by intro hc; cases hc)
    | .ok x, .ok y =>
      if h : x = y then isTrue (by rw [h])
      else isFalse (by intro hc; cases hc; exact h rfl)

/-- The observable outcome of one run of the list resolver: the rows
streamed (in order), the `ListThreatIntelSets` request made (if any), the
number of page requests, and the returned value `(nil, err)`. -/
structure ListResult where
  rows : List threatIntelSetInfo
  request : Option ListThreatIntelSetsInput
  apiPageCalls : Nat
  result : Except ApiError Unit
deriving DecidableEq

/-- Go `listGuardDutyThreatIntelSets` (lines 107–156): create the session
(propagating its error), apply the detector-id qual skip test, then run the
paginated list call and propagate its error. -/
def listGuardDutyThreatIntelSets (detectorID : String)
    (session : Except ApiError Unit)
    (detectorQual : Option QualValue)
    (apiPages : List (Except ApiError (List String)))
    (rowsRemaining : Nat → Nat) : ListResult :=
  match session with
  | .error e => { rows := [], request := none, apiPageCalls := 0, result := .error e }
  | .ok _ =>
    if shouldSkipDetector detectorID detectorQual then
      { rows := [], request := none, apiPageCalls := 0, result := .ok () }
    else
      let r := runPages detectorID rowsRemaining 0 apiPages
      { rows := r.1
        request := some (mkListInput detectorID)
        apiPageCalls := r.2.1
        result := match r.2.2 with | some e => .error e | none => .ok () }

/-- Go `getGuardDutyThreatIntelSet` (lines 160–192): create the session
(propagating its error); take the identifying pair from the prior list row
when hydrating (`h.Item != nil`), else from the key-column quals; call
`GetThreatIntelSet`, propagating its error; on success return the output
merged with the identifying pair. -/
def getGuardDutyThreatIntelSet
    (session : Except ApiError Unit)
    (hItem : Option threatIntelSetInfo)
    (qualDetectorID qualThreatIntelSetID : String)
    (api : String → String → Except ApiError GetThreatIntelSetOutput) :
    Except ApiError threatIntelSetInfo :=
  match session with
  | .error e => .error e
  | .ok _ =>
    let detectorID := match hItem with
      | some item => item.DetectorID
      | none => qualDetectorID
    let id := match hItem with
      | some item => item.ThreatIntelSetID
      | none => qualThreatIntelSetID
    match api detectorID id with
    | .error e => .error e
    | .ok op => .ok { output := op, ThreatIntelSetID := id, DetectorID := detectorID }

/-- The per-query common-column data used by the aka transform. -/
structure awsCommonColumnData where
  Partition : String
  AccountId : String
deriving DecidableEq

/-- Go `getAwsGuardDutyThreatIntelSetAkas` (lines 196–210): read the row's
identifying pair and the region, fetch the memoized common-column data
(propagating its error), and return the one-element aka list built exactly
as on line 207. -/
def getAwsGuardDutyThreatIntelSetAkas (data : threatIntelSetInfo)
    (region : String)
    (commonColumns : Except ApiError awsCommonColumnData) :
    Except ApiError (List String) :=
  match commonColumns with
  | .error e => .error e
  | .ok c =>
    .ok ["arn:" ++ c.Partition ++ ":guardduty:" ++ region ++ ":" ++ c.AccountId
          ++ ":detector" ++ "/" ++ data.DetectorID ++ "/threatintelset/"
          ++ data.ThreatIntelSetID]

/-- The error codes wired into the table descriptor's ignore policy
(line 30): `isNotFoundError([]string{"InvalidInputException", "BadRequestException"})`. -/
def tableIgnoreCodes : List String :=
  ["InvalidInputException", "BadRequestException"]

/-- Modelled from the spec: `isNotFoundError` (declared outside this file, in
the plugin's shared utilities) classifies an error as not-found exactly when
its code is one of the designated codes. -/
def isNotFoundError (codes : List String) (e : ApiError) : Bool :=
  codes.contains e.code

/-- The descriptor's `ShouldIgnoreErrorFunc` for this table. -/
def shouldIgnoreGetError : ApiError → Bool :=
  isNotFoundError tableIgnoreCodes

/-- Modelled from the spec: the host framework's point lookup applies the
descriptor's ignore policy to a failed get call, turning an ignored error
into an empty result set and passing any other error through. -/
def pointLookupRows (shouldIgnore : ApiError → Bool)
    (get : Except ApiError threatIntelSetInfo) :
    Except ApiError (List threatIntelSetInfo) :=
  match get with
  | .ok item => .ok [item]
  | .error e => if shouldIgnore e then .ok [] else .error e

/-! Helper lemmas about the page callback and the paginator. -/

theorem detector_slash_append (y : String) :
    ":detector" ++ ("/" ++ y) = ":detector/" ++ y := by
  rw [← String.append_assoc]
  rfl

theorem processPage_no_stop (d : String) (rr : Nat → Nat) (h : ∀ k, rr k ≠ 0) :
    ∀ (page : List String) (n : Nat),
      processPage d rr n page = (page.map (mkSummaryRow d), true) := by
  intro page
  induction page with
  | nil => intro n; rfl
  | cons id rest ih =>
    intro n
    simp only [processPage, if_neg (h (n + 1)), List.map, ih (n + 1)]

theorem processPage_mem (d : String) (rr : Nat → Nat) :
    ∀ (page : List String) (n : Nat) (row : threatIntelSetInfo),
      row ∈ (processPage d rr n page).1 →
      row.DetectorID = d ∧ row.ThreatIntelSetID ∈ page := by
  intro page
  induction page with
  | nil => intro n row hmem; simp [processPage] at hmem
  | cons id rest ih =>
    intro n row hmem
    by_cases h0 : rr (n + 1) = 0
    · simp only [processPage, if_pos h0, List.mem_singleton] at hmem
      subst hmem
      exact ⟨rfl, List.mem_cons_self id rest⟩
    · simp only [processPage, if_neg h0, List.mem_cons] at hmem
      rcases hmem with hmem | hmem
      · subst hmem
        exact ⟨rfl, List.mem_cons_self id rest⟩
      · rcases ih (n + 1) row hmem with ⟨h1, h2⟩
        exact ⟨h1, List.mem_cons_of_mem id h2⟩

theorem processPage_checks_lt (d : String) (rr : Nat → Nat) :
    ∀ (page : List String) (n j : Nat), 0 < j →
      j < (processPage d rr n page).1.length →
      rr (n + j) ≠ 0 := by
  intro page
  induction page with
  | nil => intro n j hj hlt; simp [processPage] at hlt
  | cons id rest ih =>
    intro n j hj hlt
    by_cases h0 : rr (n + 1) = 0
    · simp only [processPage, if_pos h0, List.length_singleton] at hlt
      omega
    · simp only [processPage, if_neg h0, List.length_cons] at hlt
      rcases Nat.eq_or_lt_of_le hj with h1 | h1
      · rw [← h1]; exact h0
      · have := ih (n + 1) (j - 1) (by omega) (by omega)
        have heq : n + 1 + (j - 1) = n + j := by omega
        rwa [heq] at this

theorem processPage_checks_cont (d : String) (rr : Nat → Nat) :
    ∀ (page : List String) (n j : Nat),
      (processPage d rr n page).2 = true → 0 < j →
      j ≤ (processPage d rr n page).1.length →
      rr (n + j) ≠ 0 := by
  intro page
  induction page with
  | nil => intro n j _ hj hle; simp [processPage] at hle; omega
  | cons id rest ih =>
    intro n j hcont hj hle
    by_cases h0 : rr (n + 1) = 0
    · simp only [processPage, if_pos h0] at hcont
      exact Bool.noConfusion hcont
    · simp only [processPage, if_neg h0, List.length_cons] at hcont hle
      rcases Nat.eq_or_lt_of_le hj with h1 | h1
      · rw [← h1]; exact h0
      · have := ih (n + 1) (j - 1) hcont (by omega) (by omega)
        have heq : n + 1 + (j - 1) = n + j := by omega
        rwa [heq] at this

theorem processPage_stop (d : String) (rr : Nat → Nat) :
    ∀ (page : List String) (n : Nat),
      (processPage d rr n page).2 = false →
      rr (n + (processPage d rr n page).1.length) = 0 := by
  intro page
  induction page with
  | nil => intro n h; simp [processPage] at h
  | cons id rest ih =>
    intro n h
    by_cases h0 : rr (n + 1) = 0
    · simpa only [processPage, if_pos h0, List.length_singleton] using h0
    · simp only [processPage, if_neg h0, List.length_cons] at h ⊢
      have := ih (n + 1) h
      have heq : n + 1 + (processPage d rr (n + 1) rest).1.length
          = n + ((processPage d rr (n + 1) rest).1.length + 1) := by omega
      rwa [heq] at this

theorem runPages_no_stop (d : String) (rr : Nat → Nat) (h : ∀ k, rr k ≠ 0) :
    ∀ (pages : List (List String)) (n : Nat), pages ≠ [] →
      runPages d rr n (pages.map Except.ok)
        = (pages.flatten.map (mkSummaryRow d), pages.length, none) := by
  intro pages
  induction pages with
  | nil => intro n hne; exact absurd rfl hne
  | cons p rest ih =>
    intro n hne
    by_cases hrest : rest = []
    · subst hrest
      simp [runPages, processPage_no_stop d rr h p n]
    · have hne2 : ((rest.map Except.ok : List (Except ApiError (List String)))).isEmpty = false := by
        cases rest with
        | nil => exact absurd rfl hrest
        | cons q qs => rfl
      simp only [List.map, runPages, processPage_no_stop d rr h p n, hne2,
        Bool.not_false, Bool.and_true, if_pos]
      rw [ih _ hrest]
      simp [List.flatten]

theorem runPages_mem (d : String) (rr : Nat → Nat) :
    ∀ (apiPages : List (Except ApiError (List String))) (n : Nat)
      (row : threatIntelSetInfo),
      row ∈ (runPages d rr n apiPages).1 →
      row.DetectorID = d ∧
        ∃ page, Except.ok page ∈ apiPages ∧ row.ThreatIntelSetID ∈ page := by
  intro apiPages
  induction apiPages with
  | nil => intro n row hmem; simp [runPages] at hmem
  | cons hd tail ih =>
    intro n row hmem
    match hd with
    | .error e => simp [runPages] at hmem
    | .ok page =>
      simp only [runPages] at hmem
      split at hmem
      · rw [List.mem_append] at hmem
        rcases hmem with hmem | hmem
        · rcases processPage_mem d rr page n row hmem with ⟨h1, h2⟩
          exact ⟨h1, page, List.mem_cons_self _ _, h2⟩
        · rcases ih _ row hmem with ⟨h1, q, hq, h2⟩
          exact ⟨h1, q, List.mem_cons_of_mem _ hq, h2⟩
      · rcases processPage_mem d rr page n row hmem with ⟨h1, h2⟩
        exact ⟨h1, page, List.mem_cons_self _ _, h2⟩

theorem runPages_checks (d : String) (rr : Nat → Nat) :
    ∀ (apiPages : List (Except ApiError (List String))) (n j : Nat), 0 < j →
      j < (runPages d rr n apiPages).1.length →
      rr (n + j) ≠ 0 := by
  intro apiPages
  induction apiPages with
  | nil => intro n j hj h; simp [runPages] at h
  | cons hd tail ih =>
    intro n j hj h
    match hd with
    | .error e => simp [runPages] at h
    | .ok page =>
      simp only [runPages] at h
      split at h
      case isTrue hc =>
        rw [List.length_append] at h
        by_cases hle : j ≤ (processPage d rr n page).1.length
        · rw [Bool.and_eq_true] at hc
          exact processPage_checks_cont d rr page n j hc.1 hj hle
        · have hrec := ih (n + (processPage d rr n page).1.length)
            (j - (processPage d rr n page).1.length) (by omega) (by omega)
          rwa [show n + (processPage d rr n page).1.length
              + (j - (processPage d rr n page).1.length) = n + j by omega] at hrec
      case isFalse hc =>
        exact processPage_checks_lt d rr page n j hj h

theorem runPages_extend (d : String) (rr : Nat → Nat) :
    ∀ (apiPages rest : List (Except ApiError (List String))) (n : Nat),
      (runPages d rr n apiPages).1 ≠ [] →
      rr (n + (runPages d rr n apiPages).1.length) = 0 →
      runPages d rr n (apiPages ++ rest) = runPages d rr n apiPages := by
  intro apiPages
  induction apiPages with
  | nil => intro rest n hne _; exact absurd rfl hne
  | cons hd tail ih =>
    intro rest n hne hsig
    match hd with
    | .error e => rfl
    | .ok page =>
      simp only [List.cons_append, runPages] at hne hsig ⊢
      by_cases hcont : (processPage d rr n page).2 = true
      · by_cases htail : tail = []
        · subst htail
          simp only [List.isEmpty_nil, Bool.not_true, Bool.and_false,
            if_neg (Bool.false_ne_true)] at hne hsig
          have hlen : 0 < (processPage d rr n page).1.length := by
            cases hp : (processPage d rr n page).1 with
            | nil => exact absurd hp hne
            | cons a b => simp [hp]
          exact absurd hsig
            (processPage_checks_cont d rr page n _ hcont hlen (le_refl _))
        · have htail2 : tail.isEmpty = false := by
            cases tail with
            | nil => exact absurd rfl htail
            | cons q qs => rfl
          have htail3 : (tail ++ rest).isEmpty = false := by
            cases tail with
            | nil => exact absurd rfl htail
            | cons q qs => rfl
          simp only [List.append_eq, hcont, htail2, htail3, Bool.not_false,
            Bool.and_true, Bool.true_and, if_pos, if_true] at hne hsig ⊢
          rw [List.length_append] at hsig
          by_cases hs1 : (runPages d rr (n + (processPage d rr n page).1.length) tail).1 = []
          · exfalso
            rw [hs1] at hne hsig
            simp only [List.append_nil, List.length_nil, Nat.add_zero] at hne hsig
            have hlen : 0 < (processPage d rr n page).1.length := by
              cases hp : (processPage d rr n page).1 with
              | nil => exact absurd hp hne
              | cons a b => simp [hp]
            exact (processPage_checks_cont d rr page n _ hcont hlen (le_refl _)) hsig
          · rw [ih rest _ hs1 (by rw [Nat.add_assoc]; exact hsig)]
      · have hcont2 : (processPage d rr n page).2 = false := by
          cases hc : (processPage d rr n page).2 with
          | false => rfl
          | true => exact absurd hc hcont
        simp only [hcont2, Bool.false_and, if_neg (Bool.false_ne_true)]

theorem runPages_error (d : String) (rr : Nat → Nat) (h : ∀ k, rr k ≠ 0) :
    ∀ (pages : List (List String)) (e : ApiError)
      (rest : List (Except ApiError (List String))) (n : Nat),
      runPages d rr n (pages.map Except.ok ++ Except.error e :: rest)
        = (pages.flatten.map (mkSummaryRow d), pages.length + 1, some e) := by
  intro pages
  induction pages with
  | nil => intro e rest n; rfl
  | cons p ps ih =>
    intro e rest n
    have hne : ((ps.map Except.ok ++ Except.error e :: rest :
        List (Except ApiError (List String)))).isEmpty = false := by
      cases hps : ps.map Except.ok with
      | nil => rfl
      | cons q qs => rfl
    simp only [List.map, List.cons_append, List.append_eq, runPages,
      processPage_no_stop d rr h p n, hne, Bool.not_false, Bool.and_true,
      Bool.true_and, if_pos, if_true]
    rw [ih e rest (n + (p.map (mkSummaryRow d)).length)]
    simp [List.flatten]

theorem list_resolver_none_eq (D : String)
    (apiPages : List (Except ApiError (List String))) (rr : Nat → Nat) :
    listGuardDutyThreatIntelSets D (.ok ()) none apiPages rr
      = { rows := (runPages D rr 0 apiPages).1
          request := some (mkListInput D)
          apiPageCalls := (runPages D rr 0 apiPages).2.1
          result := match (runPages D rr 0 apiPages).2.2 with
            | some e => .error e
            | none => .ok () } := rfl

/-! Claim theorems. -/

/-- Claim C1: for every partition, region, account ID, detector ID and
threat-intel-set ID, the aka transform returns a one-element list whose
single element is exactly
`arn:<partition>:guardduty:<region>:<accountId>:detector/<detectorId>/threatintelset/<threatIntelSetId>`;
in particular for partition "aws", region "us-east-1", account
"123456789012", detector "d1" and set "t1" it is exactly
`arn:aws:guardduty:us-east-1:123456789012:detector/d1/threatintelset/t1`. -/
theorem claim_c1_aka_format :
    (∀ (data : threatIntelSetInfo) (region p a : String),
      getAwsGuardDutyThreatIntelSetAkas data region
          (.ok { Partition := p, AccountId := a })
        = .ok ["arn:" ++ p ++ ":guardduty:" ++ region ++ ":" ++ a ++ ":detector/"
                ++ data.DetectorID ++ "/threatintelset/" ++ data.ThreatIntelSetID])
    ∧ getAwsGuardDutyThreatIntelSetAkas
        { ThreatIntelSetID := "t1", DetectorID := "d1" } "us-east-1"
        (.ok { Partition := "aws", AccountId := "123456789012" })
      = .ok ["arn:aws:guardduty:us-east-1:123456789012:detector/d1/threatintelset/t1"] := by
  constructor
  · intro data region p a
    simp only [getAwsGuardDutyThreatIntelSetAkas, String.append_assoc,
      detector_slash_append]
  · rfl

/-- Claim C2: for every detector ID D and every list-valued detector_id
constraint S present in the quals, if D is not a substring of the
stringified S the list resolver emits zero rows and makes no list API call;
and the test really is substring containment on the stringified list, not
exact element membership: "1 d" is not an element of ["d1", "d2"] yet it
passes the containment check, so the skip branch does not fire for it. -/
theorem claim_c2_list_qual_substring :
    (∀ (D : String) (S : List String)
        (apiPages : List (Except ApiError (List String))) (rr : Nat → Nat),
        S ≠ [] →
        stringsContains (fmtSprint S) D = false →
        listGuardDutyThreatIntelSets D (.ok ()) (some (.listValue S)) apiPages rr
          = { rows := [], request := none, apiPageCalls := 0, result := .ok () })
    ∧ ("1 d" ∉ (["d1", "d2"] : List String)
        ∧ stringsContains (fmtSprint ["d1", "d2"]) "1 d" = true
        ∧ shouldSkipDetector "1 d" (some (.listValue ["d1", "d2"])) = false) := by
  constructor
  · intro D S apiPages rr hS hcon
    have hskip : shouldSkipDetector D (some (.listValue S)) = true := by
      simp only [shouldSkipDetector, QualValue.getStringValue, QualValue.getListValues]
      rw [if_neg (by simp)]
      rw [if_pos (by cases S with | nil => exact absurd rfl hS | cons a b => simp)]
      rw [hcon]
      rfl
    simp [listGuardDutyThreatIntelSets, hskip]
  · exact ⟨by decide, by decide, by decide⟩

/-- Witness for C2: detector "d9" against the list qual ["d1", "d2"]. -/
theorem claim_c2_list_qual_substring_witness :
    listGuardDutyThreatIntelSets "d9" (.ok ()) (some (.listValue ["d1", "d2"]))
      [.ok ["t1"]] (fun _ => 5)
      = { rows := [], request := none, apiPageCalls := 0, result := .ok () } :=
  claim_c2_list_qual_substring.1 "d9" ["d1", "d2"] [.ok ["t1"]] (fun _ => 5)
    (by decide) (by decide)

/-- Claim C3 counterexample: the single string value F = "" differs from the
detector ID "d1", yet the list resolver does not emit zero rows — it makes
the list API call and streams the page's identifier, because the skip branch
requires a nonempty string value. -/
theorem claim_c3_empty_filter_counterexample :
    ("" : String) ≠ "d1"
    ∧ (listGuardDutyThreatIntelSets "d1" (.ok ()) (some (.stringValue ""))
        [.ok ["t1"]] (fun _ => 5)).rows = [mkSummaryRow "d1" "t1"]
    ∧ (listGuardDutyThreatIntelSets "d1" (.ok ()) (some (.stringValue ""))
        [.ok ["t1"]] (fun _ => 5)).apiPageCalls = 1 := by
  exact ⟨by decide, rfl, rfl⟩

/-- Claim C3 as amended: for every detector ID D and every single-value
detector_id constraint F present in the quals with F nonempty, if F differs
from D the list resolver emits zero rows for D and returns before making any
list API call. -/
theorem claim_c3_single_value_skip :
    ∀ (D F : String) (apiPages : List (Except ApiError (List String)))
      (rr : Nat → Nat),
      F ≠ "" → F ≠ D →
      listGuardDutyThreatIntelSets D (.ok ()) (some (.stringValue F)) apiPages rr
        = { rows := [], request := none, apiPageCalls := 0, result := .ok () } := by
  intro D F apiPages rr hF hFD
  have hskip : shouldSkipDetector D (some (.stringValue F)) = true := by
    simp only [shouldSkipDetector, QualValue.getStringValue]
    rw [if_pos hF]
    simp [hF, hFD]
  simp [listGuardDutyThreatIntelSets, hskip]

/-- Witness for the amended C3: F = "d2" against detector "d1". -/
theorem claim_c3_single_value_skip_witness :
    listGuardDutyThreatIntelSets "d1" (.ok ()) (some (.stringValue "d2"))
      [.ok ["t1"]] (fun _ => 5)
      = { rows := [], request := none, apiPageCalls := 0, result := .ok () } :=
  claim_c3_single_value_skip "d1" "d2" [.ok ["t1"]] (fun _ => 5)
    (by decide) (by decide)

/-- Claim C4: for every sequence of identifiers split across pages (each of
size at most 50), with no early-stop signal and no API failure, the list
resolver requests pages with MaxResults 50 and emits exactly the
concatenation of the pages as summary rows — every identifier exactly once,
in page order, one page request per page. -/
theorem claim_c4_pagination :
    ∀ (D : String) (pages : List (List String)) (rr : Nat → Nat),
      pages ≠ [] →
      (∀ p ∈ pages, p.length ≤ 50) →
      (∀ k, rr k ≠ 0) →
      listGuardDutyThreatIntelSets D (.ok ()) none (pages.map Except.ok) rr
        = { rows := pages.flatten.map (mkSummaryRow D)
            request := some { DetectorId := D, MaxResults := 50 }
            apiPageCalls := pages.length
            result := .ok () } := by
  intro D pages rr hne _ hrr
  rw [list_resolver_none_eq, runPages_no_stop D rr hrr pages 0 hne]
  rfl

/-- Witness for C4: three identifiers split across two pages. -/
theorem claim_c4_pagination_witness :
    listGuardDutyThreatIntelSets "d1" (.ok ())
      none ([["t1", "t2"], ["t3"]].map Except.ok) (fun _ => 7)
      = { rows := [["t1", "t2"], ["t3"]].flatten.map (mkSummaryRow "d1")
          request := some { DetectorId := "d1", MaxResults := 50 }
          apiPageCalls := 2
          result := .ok () } :=
  claim_c4_pagination "d1" [["t1", "t2"], ["t3"]] (fun _ => 7)
    (by decide) (by decide) (fun _ => Nat.succ_ne_zero 6)

/-- Claim C5: whenever the get resolver returns a record, its DetectorID and
ThreatIntelSetID fields equal the pair used for the fetch — taken from the
prior list row when hydrating, and from the key-column quals on a direct
point lookup. -/
theorem claim_c5_get_pair :
    ∀ (hItem : Option threatIntelSetInfo) (qd qt : String)
      (api : String → String → Except ApiError GetThreatIntelSetOutput)
      (res : threatIntelSetInfo),
      getGuardDutyThreatIntelSet (.ok ()) hItem qd qt api = .ok res →
      res.DetectorID
          = (match hItem with | some item => item.DetectorID | none => qd)
      ∧ res.ThreatIntelSetID
          = (match hItem with | some item => item.ThreatIntelSetID | none => qt) := by
  intro hItem qd qt api res h
  cases hItem with
  | none =>
    simp only [getGuardDutyThreatIntelSet] at h
    cases hapi : api qd qt with
    | error e => rw [hapi] at h; exact Except.noConfusion h
    | ok op =>
      rw [hapi] at h
      have := Except.ok.inj h
      subst this
      exact ⟨rfl, rfl⟩
  | some item =>
    simp only [getGuardDutyThreatIntelSet] at h
    cases hapi : api item.DetectorID item.ThreatIntelSetID with
    | error e => rw [hapi] at h; exact Except.noConfusion h
    | ok op =>
      rw [hapi] at h
      have := Except.ok.inj h
      subst this
      exact ⟨rfl, rfl⟩

/-- Witness for C5: a direct point lookup for ("d1", "t1"). -/
theorem claim_c5_get_pair_witness :
    ({ output := {}, ThreatIntelSetID := "t1", DetectorID := "d1" }
        : threatIntelSetInfo).DetectorID = "d1"
    ∧ ({ output := {}, ThreatIntelSetID := "t1", DetectorID := "d1" }
        : threatIntelSetInfo).ThreatIntelSetID = "t1" :=
  claim_c5_get_pair none "d1" "t1" (fun _ _ => .ok {})
    { output := {}, ThreatIntelSetID := "t1", DetectorID := "d1" } rfl

/-- Claim C6: the rows-remaining signal is checked after each emitted row;
no row is ever emitted after a zero signal (every non-final emitted row saw
a nonzero signal), and once the signal is zero at the last emitted row the
paginator requests nothing further — extending the upstream with more pages
changes neither the rows, the request count, nor the result. -/
theorem claim_c6_early_stop :
    (∀ (D : String) (apiPages : List (Except ApiError (List String)))
        (rr : Nat → Nat) (n : Nat),
        0 < n →
        n < (listGuardDutyThreatIntelSets D (.ok ()) none apiPages rr).rows.length →
        rr n ≠ 0)
    ∧ (∀ (D : String) (apiPages rest : List (Except ApiError (List String)))
        (rr : Nat → Nat),
        (listGuardDutyThreatIntelSets D (.ok ()) none apiPages rr).rows ≠ [] →
        rr (listGuardDutyThreatIntelSets D (.ok ()) none apiPages rr).rows.length
          = 0 →
        listGuardDutyThreatIntelSets D (.ok ()) none (apiPages ++ rest) rr
          = listGuardDutyThreatIntelSets D (.ok ()) none apiPages rr) := by
  constructor
  · intro D apiPages rr n hn hlt
    rw [list_resolver_none_eq] at hlt
    have h := runPages_checks D rr apiPages 0 n hn hlt
    rwa [Nat.zero_add] at h
  · intro D apiPages rest rr hne hsig
    rw [list_resolver_none_eq] at hne hsig
    rw [list_resolver_none_eq, list_resolver_none_eq]
    rw [runPages_extend D rr apiPages rest 0 hne (by rw [Nat.zero_add]; exact hsig)]

/-- Witness for C6: with limit 2 the check after row 1 is nonzero; with
limit 1 the run over one page ignores an appended extra page. -/
theorem claim_c6_early_stop_witness :
    ((fun n => 2 - n) 1 ≠ 0)
    ∧ listGuardDutyThreatIntelSets "d1" (.ok ()) none
        (([.ok ["a"]] : List (Except ApiError (List String))) ++ [.ok ["c"]])
        (fun n => 1 - n)
      = listGuardDutyThreatIntelSets "d1" (.ok ()) none [.ok ["a"]] (fun n => 1 - n) :=
  ⟨claim_c6_early_stop.1 "d1" [.ok ["a", "b"]] (fun n => 2 - n) 1
      (by decide) (by decide),
   claim_c6_early_stop.2 "d1" [.ok ["a"]] [.ok ["c"]] (fun n => 1 - n)
      (by decide) (by decide)⟩

/-- Claim C7: every downstream failure is returned unchanged: a failed
session creation aborts the list resolver with that error; a failed page
request aborts pagination with that error (rows already streamed stay
streamed); a failed session creation or get call aborts the get resolver
with that error — no retry, no transformation, no swallowing. -/
theorem claim_c7_error_propagation :
    (∀ (D : String) (e : ApiError) (q : Option QualValue)
        (apiPages : List (Except ApiError (List String))) (rr : Nat → Nat),
        listGuardDutyThreatIntelSets D (.error e) q apiPages rr
          = { rows := [], request := none, apiPageCalls := 0, result := .error e })
    ∧ (∀ (D : String) (pages : List (List String)) (e : ApiError)
        (rest : List (Except ApiError (List String))) (rr : Nat → Nat),
        (∀ k, rr k ≠ 0) →
        listGuardDutyThreatIntelSets D (.ok ()) none
            (pages.map Except.ok ++ Except.error e :: rest) rr
          = { rows := pages.flatten.map (mkSummaryRow D)
              request := some (mkListInput D)
              apiPageCalls := pages.length + 1
              result := .error e })
    ∧ (∀ (hItem : Option threatIntelSetInfo) (qd qt : String)
        (api : String → String → Except ApiError GetThreatIntelSetOutput)
        (e : ApiError),
        getGuardDutyThreatIntelSet (.error e) hItem qd qt api = .error e)
    ∧ (∀ (hItem : Option threatIntelSetInfo) (qd qt : String)
        (api : String → String → Except ApiError GetThreatIntelSetOutput)
        (e : ApiError),
        api (match hItem with | some item => item.DetectorID | none => qd)
            (match hItem with | some item => item.ThreatIntelSetID | none => qt)
          = .error e →
        getGuardDutyThreatIntelSet (.ok ()) hItem qd qt api = .error e) := by
  refine ⟨?_, ?_, ?_, ?_⟩
  · intro D e q apiPages rr
    rfl
  · intro D pages e rest rr hrr
    rw [list_resolver_none_eq, runPages_error D rr hrr pages e rest 0]
  · intro hItem qd qt api e
    rfl
  · intro hItem qd qt api e hapi
    cases hItem with
    | none => simp only [getGuardDutyThreatIntelSet] at hapi ⊢; rw [hapi]
    | some item => simp only [getGuardDutyThreatIntelSet] at hapi ⊢; rw [hapi]

/-- Witness for C7: a second-page failure aborts the list with that error
after the first page's row; a failing get call returns its error. -/
theorem claim_c7_error_propagation_witness :
    listGuardDutyThreatIntelSets "d1" (.ok ()) none
        (([["a"]] : List (List String)).map Except.ok
          ++ Except.error { code := "E", message := "m" } :: []) (fun _ => 7)
      = { rows := ([["a"]] : List (List String)).flatten.map (mkSummaryRow "d1")
          request := some (mkListInput "d1")
          apiPageCalls := 2
          result := .error { code := "E", message := "m" } }
    ∧ getGuardDutyThreatIntelSet (.ok ()) none "d1" "t1"
        (fun _ _ => .error { code := "E", message := "m" })
      = .error { code := "E", message := "m" } :=
  ⟨claim_c7_error_propagation.2.1 "d1" [["a"]] { code := "E", message := "m" }
      [] (fun _ => 7) (fun _ => Nat.succ_ne_zero 6),
   claim_c7_error_propagation.2.2.2 none "d1" "t1"
      (fun _ _ => .error { code := "E", message := "m" })
      { code := "E", message := "m" } rfl⟩

/-- Claim C8: the descriptor's ignore policy classifies exactly the error
codes "InvalidInputException" and "BadRequestException" as not-found, so a
failed point lookup with either code yields an empty result set, while an
error with any other code propagates as a failure. -/
theorem claim_c8_ignore_codes :
    (∀ e : ApiError,
        e.code = "InvalidInputException" ∨ e.code = "BadRequestException" →
        pointLookupRows shouldIgnoreGetError (.error e) = .ok [])
    ∧ (∀ e : ApiError,
        e.code ≠ "InvalidInputException" → e.code ≠ "BadRequestException" →
        pointLookupRows shouldIgnoreGetError (.error e) = .error e) := by
  constructor
  · intro e he
    have hig : shouldIgnoreGetError e = true := by
      rcases he with h | h <;>
        simp [shouldIgnoreGetError, isNotFoundError, tableIgnoreCodes, h]
    simp [pointLookupRows, hig]
  · intro e h1 h2
    have hig : shouldIgnoreGetError e = false := by
      simp [shouldIgnoreGetError, isNotFoundError, tableIgnoreCodes, h1, h2]
    simp [pointLookupRows, hig]

/-- Witness for C8: an InvalidInputException lookup yields an empty result;
an AccessDenied error propagates. -/
theorem claim_c8_ignore_codes_witness :
    pointLookupRows shouldIgnoreGetError
        (.error { code := "InvalidInputException", message := "m" }) = .ok []
    ∧ pointLookupRows shouldIgnoreGetError
        (.error { code := "AccessDenied", message := "m" })
      = .error { code := "AccessDenied", message := "m" } :=
  ⟨claim_c8_ignore_codes.1 { code := "InvalidInputException", message := "m" }
      (Or.inl rfl),
   claim_c8_ignore_codes.2 { code := "AccessDenied", message := "m" }
      (by decide) (by decide)⟩

/-- Claim C9: every summary row the list resolver streams carries the
current parent detector's ID in DetectorID, and a ThreatIntelSetID drawn
from one of the pages actually returned — never a pairing with a different
detector's ID. -/
theorem claim_c9_row_invariant :
    ∀ (D : String) (session : Except ApiError Unit) (q : Option QualValue)
      (apiPages : List (Except ApiError (List String))) (rr : Nat → Nat)
      (row : threatIntelSetInfo),
      row ∈ (listGuardDutyThreatIntelSets D session q apiPages rr).rows →
      row.DetectorID = D ∧
        ∃ page, Except.ok page ∈ apiPages ∧ row.ThreatIntelSetID ∈ page := by
  intro D session q apiPages rr row hmem
  match session with
  | .error e => simp [listGuardDutyThreatIntelSets] at hmem
  | .ok _ =>
    by_cases hskip : shouldSkipDetector D q = true
    · simp [listGuardDutyThreatIntelSets, hskip] at hmem
    · have hskip2 : shouldSkipDetector D q = false := by
        cases h : shouldSkipDetector D q with
        | false => rfl
        | true => exact absurd h hskip
      simp only [listGuardDutyThreatIntelSets, hskip2, Bool.false_eq_true,
        if_false] at hmem
      exact runPages_mem D rr apiPages 0 row hmem

/-- Witness for C9: the row streamed for detector "d1" and page ["t1"]. -/
theorem claim_c9_row_invariant_witness :
    (mkSummaryRow "d1" "t1").DetectorID = "d1" ∧
      ∃ page, Except.ok page ∈ ([.ok ["t1"]] : List (Except ApiError (List String)))
        ∧ (mkSummaryRow "d1" "t1").ThreatIntelSetID ∈ page :=
  claim_c9_row_invariant "d1" (.ok ()) none [.ok ["t1"]] (fun _ => 5)
    (mkSummaryRow "d1" "t1") (by decide)

/-- Claim C10: a detector_id constraint whose single string value is the
empty string (and whose list value is therefore empty) triggers neither skip
branch: the resolver behaves exactly as with no constraint, and in
particular still issues the list request for the detector. -/
theorem claim_c10_empty_string_qual :
    (∀ (D : String) (session : Except ApiError Unit)
        (apiPages : List (Except ApiError (List String))) (rr : Nat → Nat),
        listGuardDutyThreatIntelSets D session (some (.stringValue "")) apiPages rr
          = listGuardDutyThreatIntelSets D session none apiPages rr)
    ∧ (∀ (D : String) (apiPages : List (Except ApiError (List String)))
        (rr : Nat → Nat),
        (listGuardDutyThreatIntelSets D (.ok ()) (some (.stringValue ""))
            apiPages rr).request = some (mkListInput D)) := by
  constructor
  · intro D session apiPages rr
    cases session with
    | error e => rfl
    | ok _ => rfl
  · intro D apiPages rr
    rfl
